import Mathlib

/-!
Verification of the tiny-logger library (`tiny-logger.h`).

The embedding models strings as `List Char`.  Every operation of the C++
`tiny::Logger` class is translated to a pure Lean function:

* `Severity`, `m_severityStrings` — the severity enumeration and its fixed
  display strings (with their ANSI escape codes).
* `Options` — the configuration record (`prompt`, `formatChar`), with the
  same defaults as the C++ struct (`""`, `'@'`).
* `findChar` embeds `std::string::find(char)`; `matchesHere` / `findSubstr`
  embed `std::string::find(const char*)` (first index of a substring).
* `m_findNextFormatCharacter`, `m_processArguments`, `m_preparePrompt`,
  `log`, `logValue`, `initialise` — direct translations of the methods.

Console output is modelled by `Emission`: the characters written to
`std::cout`, plus whether the line was flushed (`std::endl` both appends a
newline and flushes).  Heterogeneous variadic arguments are modelled by
their rendered textual forms (`List Str`), since `m_processArguments` only
ever streams each argument to the output.

The process-wide mutable state (`Logger::m_options`) is modelled by
explicit state passing: `initialise`, `logS`, `logValueS` and
`m_preparePromptS` take the current options and return the next state.
-/

namespace TinyLogger

/-- Strings are modelled as lists of characters. -/
abbrev Str := List Char

/-- Base Logger Severities (`Logger::Severity`). -/
inductive Severity
  | FATAL
  | ERROR
  | WARNING
  | INFO
  | TRACE

/-- Base Logger Severity Strings (`Logger::m_severityStrings`), including
their ANSI terminal styling. -/
def m_severityStrings (sev : Severity) : Str :=
  match sev with
  | .FATAL => ("\x1b[1;31mFATAL\x1b[0m").toList
  | .ERROR => ("\x1b[31mERROR\x1b[0m").toList
  | .WARNING => ("\x1b[33mWARNING\x1b[0m").toList
  | .INFO => ("\x1b[34mINFO\x1b[0m").toList
  | .TRACE => ("TRACE").toList

/-- Logger Options (`Logger::Options`): prompt template and placeholder
character, with the C++ default member initialisers. -/
structure Options where
  prompt : Str := []
  formatChar : Char := '@'

/-- The default-constructed static `Logger::m_options`. -/
def initialState : Options := {}

/-- The default argument of `Logger::initialise`, `{"", '@'}`. -/
def defaultInitArg : Options := ⟨[], '@'⟩

/-- `Logger::initialise(opts)`: replaces the stored options. -/
def initialise (opts : Options) (_old : Options) : Options := opts

/-- Embeds `std::string::find(char)`: index of the first occurrence of `fc`,
`none` for `npos`. -/
def findChar (fc : Char) : Str → Option Nat
  | [] => none
  | c :: rest => if c = fc then some 0 else (findChar fc rest).map (· + 1)

/-- `pat` matches `s` position-wise from the front (the comparison
`std::string::find` performs at each candidate position). -/
def matchesHere : Str → Str → Bool
  | [], _ => true
  | _ :: _, [] => false
  | p :: ps, c :: cs => p == c && matchesHere ps cs

/-- Embeds `std::string::find(const char*)`: index of the first occurrence
of the substring `pat`, `none` for `npos`. -/
def findSubstr (pat : Str) : Str → Option Nat
  | [] => if matchesHere pat [] then some 0 else none
  | c :: rest =>
    if matchesHere pat (c :: rest) then some 0
    else (findSubstr pat rest).map (· + 1)

/-- Whether `pat` occurs as a contiguous substring of the second string
(vocabulary for stating occurrence claims). -/
def hasSubstr (pat : Str) : Str → Bool
  | [] => matchesHere pat []
  | c :: rest => matchesHere pat (c :: rest) || hasSubstr pat rest

/-- `REPLACE_LEN` constant of `m_preparePrompt`. -/
def REPLACE_LEN : Nat := 5

/-- `REPLACE_STR` constant of `m_preparePrompt`: the marker token. -/
def REPLACE_STR : Str := ("\x7bsev\x7d").toList

/-- `Logger::m_preparePrompt(sev)`: renders the configured prompt,
substituting the first `"\x7bsev}"` with the severity display string. -/
def m_preparePrompt (opts : Options) (sev : Severity) : Str :=
  if opts.prompt.length < REPLACE_LEN then opts.prompt
  else
    match findSubstr REPLACE_STR opts.prompt with
    | none => opts.prompt
    | some pos =>
      opts.prompt.take pos ++ m_severityStrings sev
        ++ opts.prompt.drop (pos + REPLACE_LEN)

/-- `Logger::m_findNextFormatCharacter(buffer)`: the part of `buffer`
before the first occurrence of the configured placeholder character, or the
whole of `buffer` when the placeholder does not occur. -/
def m_findNextFormatCharacter (fc : Char) (buffer : Str) : Str :=
  match findChar fc buffer with
  | some pos => buffer.take pos
  | none => buffer

/-- `Logger::m_processArguments`: the characters written to `std::cout`.
The base case prints the remaining buffer; the recursive case prints the
text before the next placeholder, then the next argument, and recurses on
the rest of the buffer with the remaining arguments. -/
def m_processArguments (fc : Char) : Str → List Str → Str
  | buffer, [] => buffer
  | buffer, next :: args =>
    let trimmed := m_findNextFormatCharacter fc buffer
    if trimmed.length = buffer.length then trimmed
    else
      trimmed ++ next
        ++ m_processArguments fc (buffer.drop (trimmed.length + 1)) args

/-- One console emission: the characters written, and whether the stream
was flushed at the end (`std::endl` flushes). -/
structure Emission where
  text : Str
  flushed : Bool

/-- `Logger::log(sev, fmt, args...)`: prompt, then formatted message, then
line terminator; flushed. -/
def log (opts : Options) (sev : Severity) (fmt : Str) (args : List Str) :
    Emission :=
  ⟨m_preparePrompt opts sev ++ m_processArguments opts.formatChar fmt args
    ++ ['\n'], true⟩

/-- The template `logValue` synthesizes for `n` trailing arguments: the
loop appends `"@ "` `n` times, then caps off with `"@"`.  Note the
placeholder characters are the literal `'@'`, not the configured one. -/
def buildValueTemplate (n : Nat) : Str :=
  (List.replicate n ('@' :: ' ' :: [])).flatten ++ ['@']

/-- `Logger::logValue(initial, args...)`: no prompt; formats
`[initial, ...args]` against the synthesized template, then line
terminator; flushed. -/
def logValue (opts : Options) (initial : Str) (args : List Str) : Emission :=
  ⟨m_processArguments opts.formatChar (buildValueTemplate args.length)
    (initial :: args) ++ ['\n'], true⟩

/-- Stateful view of `log`: reads the process-wide options, writes them
back unchanged (no method other than `initialise` assigns `m_options`). -/
def logS (sev : Severity) (fmt : Str) (args : List Str) (s : Options) :
    Emission × Options :=
  (log s sev fmt args, s)

/-- Stateful view of `logValue`. -/
def logValueS (initial : Str) (args : List Str) (s : Options) :
    Emission × Options :=
  (logValue s initial args, s)

/-- Stateful view of `m_preparePrompt`: the replacement happens on the
local copy `temp`, the stored options are returned unchanged. -/
def m_preparePromptS (sev : Severity) (s : Options) : Str × Options :=
  (m_preparePrompt s sev, s)

/-- Spec-side formatter, written from the spec's words for claim C2: walk
the template left to right, replacing each occurrence of the placeholder
character by the next argument, until placeholders or arguments run out;
emit literal text verbatim. -/
def formatSpec (fc : Char) : Str → List Str → Str
  | [], _ => []
  | c :: rest, [] => c :: rest
  | c :: rest, a :: as =>
    if c = fc then a ++ formatSpec fc rest as
    else c :: formatSpec fc rest (a :: as)

/-- The spaced join the amended claim C1 describes: arguments joined by a
single space. -/
def spaceJoined (initial : Str) (args : List Str) : Str :=
  initial ++ (args.map (fun a => ' ' :: a)).flatten

/-! ### Helper lemmas -/

/-- When the placeholder character does not occur, `find` reports `npos`. -/
theorem findChar_eq_none (fc : Char) :
    ∀ (s : Str), fc ∉ s → findChar fc s = none := by
  intro s
  induction s with
  | nil => intro _; rfl
  | cons c cs ih =>
    intro h
    simp only [List.mem_cons, not_or] at h
    have hc : ¬ c = fc := fun hh => h.1 hh.symm
    simp [findChar, hc, ih h.2]

/-- When the placeholder is absent, the whole buffer is returned. -/
theorem findNext_self (fc : Char) (s : Str) (h : findChar fc s = none) :
    m_findNextFormatCharacter fc s = s := by
  simp [m_findNextFormatCharacter, h]

/-- Stepping `m_findNextFormatCharacter` over a non-placeholder head. -/
theorem findNext_cons (fc c : Char) (rest : Str) (h : c ≠ fc) :
    m_findNextFormatCharacter fc (c :: rest)
      = c :: m_findNextFormatCharacter fc rest := by
  cases hfc : findChar fc rest with
  | none => simp [m_findNextFormatCharacter, findChar, h, hfc]
  | some p => simp [m_findNextFormatCharacter, findChar, h, hfc]

/-- Stepping `m_processArguments` over a non-placeholder head character. -/
theorem processArguments_cons_ne (fc c : Char) (rest a : Str) (as : List Str)
    (h : c ≠ fc) :
    m_processArguments fc (c :: rest) (a :: as)
      = c :: m_processArguments fc rest (a :: as) := by
  simp only [m_processArguments, findNext_cons fc c rest h]
  by_cases hl : (m_findNextFormatCharacter fc rest).length = rest.length
  · rw [if_pos (by simp [hl]), if_pos hl]
  · rw [if_neg (by simp [hl]), if_neg hl]
    simp

/-- The implementation's formatter agrees with the left-to-right
replacement description. -/
theorem processArguments_eq_formatSpec (fc : Char) :
    ∀ (buffer : Str) (args : List Str),
      m_processArguments fc buffer args = formatSpec fc buffer args := by
  intro buffer
  induction buffer with
  | nil =>
    intro args
    cases args with
    | nil => rfl
    | cons a as =>
      simp [m_processArguments, formatSpec, m_findNextFormatCharacter, findChar]
  | cons c rest ih =>
    intro args
    cases args with
    | nil => rfl
    | cons a as =>
      by_cases hc : c = fc
      · subst hc
        simp [m_processArguments, formatSpec, m_findNextFormatCharacter,
          findChar, ih]
      · rw [processArguments_cons_ne fc c rest a as hc]
        simp [formatSpec, hc, ih]

/-- Unfolding the synthesized value template one token at a time. -/
theorem buildValueTemplate_succ (n : Nat) :
    buildValueTemplate (n + 1) = '@' :: ' ' :: buildValueTemplate n := by
  simp [buildValueTemplate, List.replicate_succ]

/-- Stepping `m_processArguments` over a placeholder head: the next
argument is emitted in its place. -/
theorem processArguments_cons_eq (fc : Char) (rest a : Str) (as : List Str) :
    m_processArguments fc (fc :: rest) (a :: as)
      = a ++ m_processArguments fc rest as := by
  simp [m_processArguments, m_findNextFormatCharacter, findChar]

/-- Formatting the synthesized value template joins the arguments with
single spaces. -/
theorem processArguments_value :
    ∀ (as : List Str) (a : Str),
      m_processArguments '@' (buildValueTemplate as.length) (a :: as)
        = spaceJoined a as := by
  intro as
  induction as with
  | nil =>
    intro a
    have h0 : buildValueTemplate 0 = ['@'] := by simp [buildValueTemplate]
    rw [List.length_nil, h0, processArguments_cons_eq '@' [] a []]
    simp [m_processArguments, spaceJoined]
  | cons c cs ih =>
    intro a
    rw [List.length_cons, buildValueTemplate_succ,
      processArguments_cons_eq '@' (' ' :: buildValueTemplate cs.length) a
        (c :: cs),
      processArguments_cons_ne '@' ' ' (buildValueTemplate cs.length) c cs
        (by decide),
      ih c]
    simp [spaceJoined]

/-- A front match needs at least the pattern's length. -/
theorem matchesHere_length :
    ∀ (pat s : Str), matchesHere pat s = true → pat.length ≤ s.length := by
  intro pat
  induction pat with
  | nil => intro s _; simp
  | cons p ps ih =>
    intro s h
    cases s with
    | nil => simp [matchesHere] at h
    | cons c cs =>
      simp only [matchesHere, Bool.and_eq_true] at h
      simpa using ih cs h.2

/-- A found substring position leaves room for the whole pattern. -/
theorem findSubstr_bound (pat : Str) :
    ∀ (s : Str) (pos : Nat),
      findSubstr pat s = some pos → pos + pat.length ≤ s.length := by
  intro s
  induction s with
  | nil =>
    intro pos h
    cases hm : matchesHere pat [] with
    | true =>
      rw [findSubstr, if_pos hm] at h
      cases h
      simpa using matchesHere_length pat [] hm
    | false => rw [findSubstr, if_neg (by simp [hm])] at h; cases h
  | cons c cs ih =>
    intro pos h
    cases hm : matchesHere pat (c :: cs) with
    | true =>
      rw [findSubstr, if_pos hm] at h
      cases h
      simpa using matchesHere_length pat (c :: cs) hm
    | false =>
      rw [findSubstr, if_neg (by simp [hm])] at h
      cases hf : findSubstr pat cs with
      | none => rw [hf] at h; cases h
      | some p =>
        rw [hf] at h
        cases h
        have := ih p hf
        simp only [List.length_cons]
        omega

/-- No occurrence of the pattern means `find` reports `npos`. -/
theorem hasSubstr_false (pat : Str) :
    ∀ (s : Str), hasSubstr pat s = false → findSubstr pat s = none := by
  intro s
  induction s with
  | nil =>
    intro h
    simp only [hasSubstr] at h
    simp [findSubstr, h]
  | cons c cs ih =>
    intro h
    simp only [hasSubstr, Bool.or_eq_false_iff] at h
    simp [findSubstr, h.1, ih h.2]

/-! ### Claim theorems -/

/-- Claim C1 (counterexample): with configured placeholder `'#'`,
`logValue(1, 2, 3)` does not produce output `"1 2 3"`; the synthesized
template is built from literal `'@'` characters, which are not the
configured placeholder, so the template is emitted verbatim. -/
theorem C1_counterexample :
    (logValue ⟨[], '#'⟩ (("1").toList) [("2").toList, ("3").toList]).text
        = ("@ @ @").toList ++ ['\n']
      ∧ (logValue ⟨[], '#'⟩ (("1").toList) [("2").toList, ("3").toList]).text
        ≠ ("1 2 3").toList ++ ['\n'] := by
  decide

/-- Claim C1 (amended): when the configured placeholder character is `'@'`
(the default), `logValue(initial, args...)` formats `[initial, ...args]`
against the synthesized template of `N` placeholder-plus-space tokens plus
a final placeholder, producing the arguments joined by single spaces,
followed by a line terminator and flush; in particular `logValue(1, 2, 3)`
produces `"1 2 3"`.  The property does not extend to every configured
placeholder character, since the synthesized template is built from the
literal character `'@'`. -/
theorem C1_logValue_spaced (opts : Options) (h : opts.formatChar = '@')
    (initial : Str) (args : List Str) :
    (logValue opts initial args).text = spaceJoined initial args ++ ['\n']
      ∧ (logValue opts initial args).flushed = true := by
  refine ⟨?_, rfl⟩
  simp only [logValue, h]
  rw [processArguments_value args initial]

/-- Witness for C1: `logValue(1, 2, 3)` under the default configuration
produces `"1 2 3"` plus line terminator. -/
theorem C1_witness :
    (logValue ⟨[], '@'⟩ (("1").toList) [("2").toList, ("3").toList]).text
        = ("1 2 3").toList ++ ['\n']
      ∧ (logValue ⟨[], '@'⟩ (("1").toList)
          [("2").toList, ("3").toList]).flushed = true := by
  have h := C1_logValue_spaced ⟨[], '@'⟩ rfl (("1").toList)
    [("2").toList, ("3").toList]
  refine ⟨?_, h.2⟩
  rw [h.1]
  decide

/-- Claim C2: the output of the formatter is the template with each
occurrence of the configured placeholder character replaced left-to-right
by the successive arguments, until placeholders or arguments run out; in
particular `format("a@b@c", ["X","Y"])` with placeholder `'@'` emits
`"aXbYc"`. -/
theorem C2_format_left_to_right :
    (∀ (fc : Char) (template : Str) (args : List Str),
        m_processArguments fc template args = formatSpec fc template args)
      ∧ m_processArguments '@' (("a@b@c").toList)
          [("X").toList, ("Y").toList] = ("aXbYc").toList :=
  ⟨fun fc template args => processArguments_eq_formatSpec fc template args,
    by decide⟩

/-- Claim C3: `log(severity, template, args...)` emits exactly the
prepared prompt, then the format output, then a line terminator, and
flushes the stream. -/
theorem C3_log_shape :
    ∀ (opts : Options) (sev : Severity) (fmt : Str) (args : List Str),
      (log opts sev fmt args).text
          = m_preparePrompt opts sev
              ++ m_processArguments opts.formatChar fmt args ++ ['\n']
        ∧ (log opts sev fmt args).flushed = true :=
  fun _ _ _ _ => ⟨rfl, rfl⟩

/-- Claim C4 (counterexample): the prompt template `"{sev}-{sev}"` with
severity INFO does not yield the literal `"INFO-{sev}"`; the INFO display
string carries ANSI colour styling. -/
theorem C4_counterexample :
    m_preparePrompt ⟨("\x7bsev\x7d-\x7bsev\x7d").toList, '@'⟩ Severity.INFO
      ≠ ("INFO-\x7bsev\x7d").toList := by
  decide

/-- Claim C4 (amended): `buildPrompt` substitutes only the first
occurrence of the marker token `"{sev}"`, leaving everything after it —
later occurrences included — untouched: whenever the marker is first found
at position `pos`, the result is the prompt up to `pos`, then the severity
display string, then the prompt from `pos + 5` on verbatim.  In particular
`"{sev}-{sev}"` with severity INFO yields the INFO display string
(`"\x1b[34mINFO\x1b[0m"`, with its ANSI styling) followed by `"-{sev}"`,
the second token untouched. -/
theorem C4_first_occurrence_only (prompt : Str) (fc : Char) (sev : Severity)
    (pos : Nat) (h : findSubstr REPLACE_STR prompt = some pos) :
    m_preparePrompt ⟨prompt, fc⟩ sev
      = prompt.take pos ++ m_severityStrings sev
          ++ prompt.drop (pos + REPLACE_LEN) := by
  have hb : pos + REPLACE_STR.length ≤ prompt.length :=
    findSubstr_bound REPLACE_STR prompt pos h
  have hlen : REPLACE_STR.length = 5 := by decide
  rw [hlen] at hb
  have h5 : ¬ prompt.length < REPLACE_LEN := by
    simp only [REPLACE_LEN]
    omega
  simp [m_preparePrompt, h5, h]

/-- Witness for C4: the first `"{sev}"` of `"{sev}-{sev}"` (at position 0)
is replaced by the styled INFO display string; `"-{sev}"` stays. -/
theorem C4_witness :
    m_preparePrompt ⟨("\x7bsev\x7d-\x7bsev\x7d").toList, '@'⟩ Severity.INFO
      = (("\x7bsev\x7d-\x7bsev\x7d").toList).take 0
          ++ m_severityStrings Severity.INFO
          ++ (("\x7bsev\x7d-\x7bsev\x7d").toList).drop (0 + REPLACE_LEN) :=
  C4_first_occurrence_only (("\x7bsev\x7d-\x7bsev\x7d").toList) '@'
    Severity.INFO 0 (by decide)

/-- Claim C5: when the template contains no occurrence of the configured
placeholder character, the formatter emits the entire template verbatim and
silently discards all arguments (and, being a total function, raises no
error). -/
theorem C5_no_placeholder_verbatim (fc : Char) (template : Str)
    (args : List Str) (h : fc ∉ template) :
    m_processArguments fc template args = template := by
  cases args with
  | nil => rfl
  | cons a as =>
    have hn : findChar fc template = none := findChar_eq_none fc template h
    have ht : m_findNextFormatCharacter fc template = template :=
      findNext_self fc template hn
    simp [m_processArguments, ht]

/-- Witness for C5: `format("no placeholders here", ["X"])` emits
`"no placeholders here"` verbatim, dropping `"X"`. -/
theorem C5_witness :
    m_processArguments '@' (("no placeholders here").toList) [("X").toList]
      = ("no placeholders here").toList :=
  C5_no_placeholder_verbatim '@' (("no placeholders here").toList)
    [("X").toList] (by decide)

/-- Claim C6: for every severity, if the configured prompt template
contains no occurrence of the literal substring `"{sev}"`, the prepared
prompt is the template unchanged. -/
theorem C6_no_marker_unchanged (opts : Options) (sev : Severity)
    (h : hasSubstr REPLACE_STR opts.prompt = false) :
    m_preparePrompt opts sev = opts.prompt := by
  have hn : findSubstr REPLACE_STR opts.prompt = none :=
    hasSubstr_false REPLACE_STR opts.prompt h
  simp [m_preparePrompt, hn]

/-- Witness for C6: the five-character prompt `"hello"` (long enough to
pass the length check) contains no marker and is returned unchanged. -/
theorem C6_witness :
    m_preparePrompt ⟨("hello").toList, '@'⟩ Severity.INFO
      = ("hello").toList :=
  C6_no_marker_unchanged ⟨("hello").toList, '@'⟩ Severity.INFO (by decide)

/-- Claim C7: every prompt template of length strictly less than 5 is
returned unchanged by `buildPrompt`, regardless of its content or of the
severity. -/
theorem C7_short_prompt_unchanged (opts : Options) (sev : Severity)
    (h : opts.prompt.length < 5) :
    m_preparePrompt opts sev = opts.prompt := by
  simp [m_preparePrompt, REPLACE_LEN, h]

/-- Witness for C7: the four-character prompt `"{sev"` is returned
unchanged. -/
theorem C7_witness :
    m_preparePrompt ⟨("\x7bsev").toList, '@'⟩ Severity.TRACE
      = ("\x7bsev").toList :=
  C7_short_prompt_unchanged ⟨("\x7bsev").toList, '@'⟩ Severity.TRACE
    (by decide)

/-- Claim C8: after any prior configuration, re-initialising with the
default configuration (empty prompt, placeholder `'@'`) makes every
subsequent `log` and `logValue` behave identically to a process in which
`initialise` was never called (whose state is the default-constructed
options). -/
theorem C8_default_reinitialise :
    ∀ (prior : Options) (sev : Severity) (fmt : Str) (args : List Str)
      (initial : Str) (vargs : List Str),
      log (initialise defaultInitArg prior) sev fmt args
          = log initialState sev fmt args
        ∧ logValue (initialise defaultInitArg prior) initial vargs
          = logValue initialState initial vargs :=
  fun _ _ _ _ _ _ => ⟨rfl, rfl⟩

/-- Claim C9: when the argument list is exhausted but the remaining
template still contains the configured placeholder character, the
formatter emits the entire remaining template verbatim — placeholder
characters included — and completes normally; in particular
`format("a@b@c@d", ["X"])` emits `"aXb@c@d"`. -/
theorem C9_exhausted_args_verbatim :
    (∀ (fc : Char) (rem : Str), fc ∈ rem →
        m_processArguments fc rem [] = rem)
      ∧ m_processArguments '@' (("a@b@c@d").toList) [("X").toList]
          = ("aXb@c@d").toList :=
  ⟨fun _ _ _ => rfl, by decide⟩

/-- Witness for C9: the remaining template `"x@y"` still containing `'@'`
is emitted verbatim once the arguments are exhausted. -/
theorem C9_witness :
    m_processArguments '@' (("x@y").toList) [] = ("x@y").toList :=
  C9_exhausted_args_verbatim.1 '@' (("x@y").toList) (by decide)

/-- Claim C10: every logging operation leaves the process-wide
configuration unchanged — `log`, `logValue` and the prompt preparation
they invoke return the stored options exactly as the most recent
`initialise` (or the defaults) left them; the `"{sev}"` replacement
happens on a copy of the prompt. -/
theorem C10_config_unchanged :
    (∀ (sev : Severity) (fmt : Str) (args : List Str) (s : Options),
        (logS sev fmt args s).2 = s)
      ∧ (∀ (initial : Str) (args : List Str) (s : Options),
          (logValueS initial args s).2 = s)
      ∧ (∀ (sev : Severity) (s : Options), (m_preparePromptS sev s).2 = s) :=
  ⟨fun _ _ _ _ => rfl, fun _ _ _ => rfl, fun _ _ => rfl⟩

end TinyLogger
